import Mathlib

/-!
Verification of the rookiegen chess-board core against its specification.

The definitions below are a shallow embedding of the C sources:

* board geometry, `data_kingtab`, `data_knighttab` and `data_sq2sq`
  are translated from the table generator `makeData.c`;
* the promotion XOR constants and the move-word encoding are translated
  from `intern.h` and the `GENERATE_*_PROMOTION` macros of `generate.c`;
* later sections embed the halfmove-clock logic of `move.c`/`castle.c`,
  the perft node counting of `rmoves.c`, the static exchange evaluator
  of `exchange.c`, the en-passant generator of `generate.c` and the
  undo-log bookkeeping of `promote.c`/`capture.c`.

Machine integers are modelled as `Nat` (with explicit `% 2^w` where a

C narrowing conversion matters) or as `Int` where the C value can be
negative.
-/

namespace Rookie

/-! ## Board geometry (board.h) -/

/-- board.h: `BOARD_SQUARE(file, rank) = ((file) << 3) | (rank)`.
The layout is file-major. -/
def boardSquare (file rank : ℕ) : ℕ := 8 * file + rank

/-- board.h: `BOARD_RANK(square) = ((square) & 7)`. -/
def boardRank (sq : ℕ) : ℕ := sq % 8

/-- board.h: `BOARD_FILE(square) = ((square) >> 3)`. -/
def boardFile (sq : ℕ) : ℕ := sq / 8

/-- The eight sliding directions of `enum board_attack` (board.h). -/
inductive Dir : Type
  | n | ne | e | se | s | sw | w | nw
deriving DecidableEq, Fintype

/-- The attack-descriptor bit of each direction (board.h, `enum board_attack`). -/
def dirBit : Dir → ℕ
  | .n => 0x0001
  | .ne => 0x0002
  | .e => 0x0004
  | .se => 0x0008
  | .s => 0x0010
  | .sw => 0x0020
  | .w => 0x0040
  | .nw => 0x0080

/-- board.h: `BOARD_VECTOR_NORTH = E5 - E4` and friends; in the file-major
layout north is +1, east is +8. -/
def dirStep : Dir → ℤ
  | .n => 1
  | .ne => 9
  | .e => 8
  | .se => 7
  | .s => -1
  | .sw => -9
  | .w => -8
  | .nw => -7

/-- The directions in bit order, used to fold tables together. -/
def dirList : List Dir := [.n, .ne, .e, .se, .s, .sw, .w, .nw]

/-- makeData.c, `data_kingtab` generator: which directions stay on the board
from a square.  Direct translation of the rank/file conditions. -/
def kingtabHas (sq : ℕ) (d : Dir) : Bool :=
  match d with
  | .n => boardRank sq != 7
  | .ne => (boardRank sq != 7) && (boardFile sq != 7)
  | .nw => (boardRank sq != 7) && (boardFile sq != 0)
  | .e => boardFile sq != 7
  | .w => boardFile sq != 0
  | .s => boardRank sq != 0
  | .se => (boardRank sq != 0) && (boardFile sq != 7)
  | .sw => (boardRank sq != 0) && (boardFile sq != 0)

/-- makeData.c: the `data_kingtab[sq]` byte, an OR of the on-board
direction bits. -/
def data_kingtab (sq : ℕ) : ℕ :=
  dirList.foldl (fun acc d => if kingtabHas sq d then acc ||| dirBit d else acc) 0

/-- One king step from `sq` in direction `d`.  Every use is guarded by
`kingtabHas sq d` (as in makeData.c), under which the step cannot leave
`0..63`, so plain `Nat` arithmetic agrees with the C `int` arithmetic. -/
def dirMove (sq : ℕ) (d : Dir) : ℕ :=
  match d with
  | .n => sq + 1
  | .ne => sq + 9
  | .e => sq + 8
  | .se => sq + 7
  | .s => sq - 1
  | .sw => sq - 9
  | .w => sq - 8
  | .nw => sq - 7

/-- Whether square `b` is hit when walking from `sq` in direction `d` while
the `kingtab` of the current square still allows the step.  This is the walk
the `data_raylen`/`data_sq2sq` generator in makeData.c performs; a ray is at
most 7 squares long. -/
def rayHits : ℕ → ℕ → Dir → ℕ → Bool
  | 0, _, _, _ => false
  | fuel + 1, sq, d, b =>
    if kingtabHas sq d then
      let sq2 := dirMove sq d
      if sq2 == b then true else rayHits fuel sq2 d b
    else false

/-- The eight knight jumps of `enum` jump directions (intern.h). -/
inductive Jump : Type
  | nnw | nne | ene | ese | ssw | sse | wnw | wsw
deriving DecidableEq, Fintype

/-- makeData.c `vector_jump`: each jump is the sum of two step vectors. -/
def jumpStep : Jump → ℤ
  | .nnw => -6
  | .nne => 10
  | .ene => 17
  | .ese => 15
  | .ssw => -10
  | .sse => 6
  | .wnw => -15
  | .wsw => -17

/-- The jumps in bit order. -/
def jumpList : List Jump := [.nnw, .nne, .ene, .ese, .ssw, .sse, .wnw, .wsw]

/-- makeData.c, `data_knighttab` generator: which knight jumps stay on the
board from a square.  Direct translation of the rank/file conditions. -/
def knighttabHas (sq : ℕ) (j : Jump) : Bool :=
  match j with
  | .nnw => (boardRank sq != 6) && (boardRank sq != 7) && (boardFile sq != 0)
  | .nne => (boardRank sq != 6) && (boardRank sq != 7) && (boardFile sq != 7)
  | .ene => (boardFile sq != 6) && (boardFile sq != 7) && (boardRank sq != 7)
  | .ese => (boardFile sq != 6) && (boardFile sq != 7) && (boardRank sq != 0)
  | .ssw => (boardRank sq != 0) && (boardRank sq != 1) && (boardFile sq != 0)
  | .sse => (boardRank sq != 0) && (boardRank sq != 1) && (boardFile sq != 7)
  | .wnw => (boardFile sq != 0) && (boardFile sq != 1) && (boardRank sq != 7)
  | .wsw => (boardFile sq != 0) && (boardFile sq != 1) && (boardRank sq != 0)

/-! ## Promotion encoding (intern.h, generate.c) -/

/-- The four promotion choices. -/
inductive PromPiece : Type
  | queen | rook | bishop | knight
deriving DecidableEq, Fintype

/-- intern.h: `XOR_PROM_QUEEN = BOARD_SQUARE(4,0)`, `XOR_PROM_ROOK =
BOARD_SQUARE(4,2)`, `XOR_PROM_BISHOP = BOARD_SQUARE(4,3)`, `XOR_PROM_KNIGHT =
BOARD_SQUARE(4,7)`. -/
def xorProm : PromPiece → ℕ
  | .queen => boardSquare 4 0
  | .rook => boardSquare 4 2
  | .bishop => boardSquare 4 3
  | .knight => boardSquare 4 7

/-- intern.h: the `data_promotion_*` flag of each promotion piece. -/
def promFlag : PromPiece → ℕ
  | .queen => 0x1000
  | .rook => 0x2000
  | .bishop => 0x4000
  | .knight => 0x8000

/-- The promotion pieces in flag order. -/
def promList : List PromPiece := [.queen, .rook, .bishop, .knight]

/-- move.h: `MOVE(from,to) = ((from)<<6) | (to)`. -/
def MOVE (a b : ℕ) : ℕ := (a <<< 6) ||| b

/-- generate.c, `GENERATE_WHITE_PROMOTION` / `GENERATE_BLACK_PROMOTION`:
the emitted promotion move word is `MOVE(from, to) ^ XOR_PROM_XXX`. -/
def promotionMoveWord (p : PromPiece) (a b : ℕ) : ℕ := MOVE a b ^^^ xorProm p

/-! ## The square-to-square relation table (makeData.c) -/

/-- The sliding-ray component of `data_sq2sq[a][b]`: makeData.c ORs the
direction bit into every square on the walk from `a`. -/
def sq2sqRays (a b : ℕ) : ℕ :=
  dirList.foldl
    (fun acc d => if rayHits 7 a d b then acc ||| dirBit d else acc) 0

/-- The king component of `data_sq2sq[a][b]` (`board_attack_king` when `b`
is one on-board king step from `a`). -/
def sq2sqKing (a b : ℕ) : ℕ :=
  if dirList.any (fun d => kingtabHas a d && (dirMove a d == b)) then 0x0100 else 0

/-- One knight jump from `sq`.  Every use is guarded by `knighttabHas sq j`
(as in makeData.c), under which the jump cannot leave `0..63`, so plain
`Nat` arithmetic agrees with the C `int` arithmetic. -/
def jumpMove (sq : ℕ) (j : Jump) : ℕ :=
  match j with
  | .nnw => sq - 6
  | .nne => sq + 10
  | .ene => sq + 17
  | .ese => sq + 15
  | .ssw => sq - 10
  | .sse => sq + 6
  | .wnw => sq - 15
  | .wsw => sq - 17

/-- The knight component of `data_sq2sq[a][b]` (`board_attack_knight` when
`b` is one on-board knight jump from `a`). -/
def sq2sqKnight (a b : ℕ) : ℕ :=
  if jumpList.any (fun j => knighttabHas a j && (jumpMove a j == b))
  then 0x0800 else 0

/-- The `board_attack_pawn_west` component of `data_sq2sq[a][b]`
(makeData.c lines 304-313). -/
def sq2sqPawnWest (a b : ℕ) : ℕ :=
  if boardFile a != 0 then
    (if (boardRank a != 7) && (dirMove a .nw == b) then 0x0200 else 0) |||
    (if (boardRank a != 0) && (dirMove a .sw == b) then 0x0200 else 0)
  else 0

/-- The `board_attack_pawn_east` component of `data_sq2sq[a][b]`
(makeData.c lines 314-323). -/
def sq2sqPawnEast (a b : ℕ) : ℕ :=
  if boardFile a != 7 then
    (if (boardRank a != 7) && (dirMove a .ne == b) then 0x0400 else 0) |||
    (if (boardRank a != 0) && (dirMove a .se == b) then 0x0400 else 0)
  else 0

/-- The promotion targets reachable by a white pawn on `a` (rank 7, i.e.
rank index 6): push north plus the on-board capture diagonals
(makeData.c lines 328-349). -/
def whitePromTargets (a : ℕ) : List ℕ :=
  [dirMove a .n] ++
  (if boardFile a != 0 then [dirMove a .nw] else []) ++
  (if boardFile a != 7 then [dirMove a .ne] else [])

/-- The promotion targets reachable by a black pawn on `a` (rank 2, i.e.
rank index 1) (makeData.c lines 351-372). -/
def blackPromTargets (a : ℕ) : List ℕ :=
  [dirMove a .s] ++
  (if boardFile a != 0 then [dirMove a .sw] else []) ++
  (if boardFile a != 7 then [dirMove a .se] else [])

/-- The `data_promotion_*` component of `data_sq2sq[a][b]`: for each
promotion target `t` the flag is ORed into entry `[a][t ^ XOR_PROM_XXX]`. -/
def sq2sqProm (a b : ℕ) : ℕ :=
  (if boardRank a == 6 then
    (whitePromTargets a).foldl
      (fun acc t =>
        promList.foldl
          (fun acc2 p => if t ^^^ xorProm p == b then acc2 ||| promFlag p else acc2)
          acc) 0
  else 0) |||
  (if boardRank a == 1 then
    (blackPromTargets a).foldl
      (fun acc t =>
        promList.foldl
          (fun acc2 p => if t ^^^ xorProm p == b then acc2 ||| promFlag p else acc2)
          acc) 0
  else 0)

/-- makeData.c: the full `data_sq2sq[a][b]` word, the OR of every way square
`a` relates to square `b`. -/
def data_sq2sq (a b : ℕ) : ℕ :=
  sq2sqRays a b ||| sq2sqKing a b ||| sq2sqKnight a b |||
  sq2sqPawnWest a b ||| sq2sqPawnEast a b ||| sq2sqProm a b

/-- intern.h: `DATA_PROMOTION_FLAGS`, the OR of the four promotion flags. -/
def DATA_PROMOTION_FLAGS : ℕ := 0xF000

end Rookie

namespace Rookie

/-! ## Claim C4 -/

/-- C4 counterexample: the claim names the promotion XOR constants as
queen=4, rook=20, bishop=28, knight=60, but intern.h defines them as
`BOARD_SQUARE(4,0) = 32`, `BOARD_SQUARE(4,2) = 34`, `BOARD_SQUARE(4,3) = 35`
and `BOARD_SQUARE(4,7) = 39` (the spec quoted the constants for a rank-major
square layout, while this board is file-major).  Concretely, the white
queen-promotion c7-c8 (from = 22, to = 23) is emitted as move word
`MOVE(22,23) ^ 32 = 1463` and not as `(22 << 6) | (23 ^ 4) = 1427`. -/
theorem C4_counterexample :
    xorProm .queen = 32 ∧ xorProm .rook = 34 ∧
    xorProm .bishop = 35 ∧ xorProm .knight = 39 ∧
    promotionMoveWord .queen 22 23 = 1463 ∧
    promotionMoveWord .queen 22 23 ≠ (22 <<< 6) ||| (23 ^^^ 4) ∧
    xorProm .queen ≠ 4 ∧ xorProm .rook ≠ 20 ∧
    xorProm .bishop ≠ 28 ∧ xorProm .knight ≠ 60 := by
  decide

set_option maxHeartbeats 4000000 in
/-- C4 (amended): promotion move words are `(from << 6) | to` with the
`to` field XOR-ed by one of the four constants of intern.h — queen = 32,
rook = 34, bishop = 35, knight = 39 (`BOARD_SQUARE(4,0/2/3/7)` in the
file-major layout) — and for every legal promotion (every promotion
from-square `a` and every push or capture target `t` of the promoting
pawn) the XOR-encoded `to` value `t ^ XOR_PROM_XXX` lands on a square
whose `data_sq2sq[a][·]` entry is exactly the one promotion flag of that
piece: no sliding-ray, king, knight or pawn-capture bit (so the square is
not reachable from `a` by any non-promoting piece) and no other promotion
flag (so the four promotion choices and the different targets stay
distinct).  Hence each `(from, to)` pair is unique across all legal moves
including the four promotion choices.  This is the property the table
generator makeData.c checks when it emits `data_sq2sq`. -/
theorem C4_amended :
    (xorProm .queen = boardSquare 4 0 ∧ xorProm .rook = boardSquare 4 2 ∧
     xorProm .bishop = boardSquare 4 3 ∧ xorProm .knight = boardSquare 4 7) ∧
    (∀ a < 64, ∀ b < 64, ∀ p : PromPiece,
      promotionMoveWord p a b = (a <<< 6) ||| (b ^^^ xorProm p)) ∧
    (∀ a < 64,
      (boardRank a = 6 → ∀ t ∈ whitePromTargets a, ∀ p : PromPiece,
        data_sq2sq a (t ^^^ xorProm p) = promFlag p) ∧
      (boardRank a = 1 → ∀ t ∈ blackPromTargets a, ∀ p : PromPiece,
        data_sq2sq a (t ^^^ xorProm p) = promFlag p)) := by
  decide

/-- Witness for C4 (amended): the white queen promotion from c7
(square 22) pushing to c8 (square 23) encodes its target as square 55,
whose `data_sq2sq` entry carries the queen promotion flag and nothing
else. -/
theorem C4_amended_witness :
    (22 < 64 ∧ boardRank 22 = 6 ∧ 23 ∈ whitePromTargets 22) ∧
    data_sq2sq 22 (23 ^^^ xorProm .queen) = promFlag .queen :=
  ⟨⟨by decide, by decide, by decide⟩,
   (C4_amended.2.2 22 (by decide)).1 (by decide) 23 (by decide) .queen⟩

/-! ## The halfmove clock (move.c, castle.c, capture.c, promote.c,
enpassant.c) -/

/-- The specialized move-maker functions (`make_move_fn`) that
`board_make_move` can dispatch to, one constructor per C function
declared in move.h, capture.h, castle.h, enpassant.h and promote.h. -/
inductive MoveMaker : Type
  | move_white_king | move_black_king
  | move_white_king_castle | move_black_king_castle
  | move_white_queen | move_black_queen
  | move_white_rook | move_black_rook
  | move_white_rook_castle | move_black_rook_castle
  | move_white_bishop | move_black_bishop
  | move_white_knight | move_black_knight
  | move_white_pawn_rank2_to_3 | move_white_pawn_rank2_to_4 | move_white_pawn
  | move_black_pawn_rank7_to_6 | move_black_pawn_rank7_to_5 | move_black_pawn
  | capture_with_king
  | capture_with_white_king_castle | capture_with_black_king_castle
  | capture_with_queen
  | capture_with_rook
  | capture_with_white_rook_castle | capture_with_black_rook_castle
  | capture_with_bishop
  | capture_with_knight
  | capture_with_white_pawn | capture_with_black_pawn
  | castle_white_king_side | castle_white_queen_side
  | castle_black_king_side | castle_black_queen_side
  | enpassant_with_white_pawn | enpassant_with_black_pawn
  | promote_white_queen | promote_white_rook
  | promote_white_bishop | promote_white_knight
  | promote_black_queen | promote_black_rook
  | promote_black_bishop | promote_black_knight
deriving DecidableEq, Fintype

/-- Which move makers execute
`bd->current->halfmove_clock = bd->current[-1].halfmove_clock + 1`.
From the sources: the generic king/queen/rook/bishop/knight movers of
move.c (move.c:463, 567, 742, 854, 966, shared by the `_castle` variants
that tail-call them) and the four castling makers of castle.c
(castle.c:158, 255, 352, 449).  No capture, pawn, en-passant or promotion
maker touches the clock. -/
def makerWritesClock : MoveMaker → Bool
  | .move_white_king | .move_black_king => true
  | .move_white_king_castle | .move_black_king_castle => true
  | .move_white_queen | .move_black_queen => true
  | .move_white_rook | .move_black_rook => true
  | .move_white_rook_castle | .move_black_rook_castle => true
  | .move_white_bishop | .move_black_bishop => true
  | .move_white_knight | .move_black_knight => true
  | .castle_white_king_side | .castle_white_queen_side => true
  | .castle_black_king_side | .castle_black_queen_side => true
  | _ => false

/-- Whether a maker performs an irreversible move in the sense of the
halfmove clock, which board.h (lines 357-362) defines by the PGN rule:
a pawn advance or a capturing move.  (The same comment notes that
castling, although irreversible for repetition purposes, does not reset
the clock, to keep 50-move detection correct.) -/
def makerIsIrreversible : MoveMaker → Bool
  | .move_white_pawn_rank2_to_3 | .move_white_pawn_rank2_to_4
  | .move_white_pawn => true
  | .move_black_pawn_rank7_to_6 | .move_black_pawn_rank7_to_5
  | .move_black_pawn => true
  | .capture_with_king => true
  | .capture_with_white_king_castle | .capture_with_black_king_castle => true
  | .capture_with_queen | .capture_with_rook => true
  | .capture_with_white_rook_castle | .capture_with_black_rook_castle => true
  | .capture_with_bishop | .capture_with_knight => true
  | .capture_with_white_pawn | .capture_with_black_pawn => true
  | .enpassant_with_white_pawn | .enpassant_with_black_pawn => true
  | .promote_white_queen | .promote_white_rook => true
  | .promote_white_bishop | .promote_white_knight => true
  | .promote_black_queen | .promote_black_rook => true
  | .promote_black_bishop | .promote_black_knight => true
  | _ => false

/-- The halfmove clock of the new frame after `board_make_move`:
move.c:95 first sets `frame[+1].halfmove_clock = 0`, then the dispatched
maker may overwrite it with `frame[-1].halfmove_clock + 1`.  The field is
an `unsigned char` (board.h:363), so the C assignment truncates mod 256. -/
def makeHalfmoveClock (parentClock : ℕ) (m : MoveMaker) : ℕ :=
  if makerWritesClock m then (parentClock + 1) % 256 else 0

/-- C7: after every make of a generated move, the new frame's halfmove
clock is 0 if the move is irreversible (a pawn move or capture, the PGN
rule quoted in board.h) and equals the parent frame's halfmove clock plus
one otherwise; in particular it is always either 0 or parent + 1.  The
hypothesis `parentClock < 255` rules out `unsigned char` wrap-around; it
always holds because the clock starts at 0 on setup and can rise at most
once per ply over a stack of at most 250 plies. -/
theorem C7_halfmove_clock (m : MoveMaker) (parentClock : ℕ)
    (h : parentClock < 255) :
    makeHalfmoveClock parentClock m =
      (if makerIsIrreversible m then 0 else parentClock + 1) ∧
    (makeHalfmoveClock parentClock m = 0 ∨
     makeHalfmoveClock parentClock m = parentClock + 1) := by
  have hm : (parentClock + 1) % 256 = parentClock + 1 :=
    Nat.mod_eq_of_lt (by omega)
  cases m <;>
    simp [makeHalfmoveClock, makerWritesClock, makerIsIrreversible, hm]

/-- Witness for C7 at a concrete maker and clock. -/
theorem C7_halfmove_clock_witness :
    (7 : ℕ) < 255 ∧
    (makeHalfmoveClock 7 .move_white_king =
      (if makerIsIrreversible .move_white_king then 0 else 7 + 1) ∧
    (makeHalfmoveClock 7 .move_white_king = 0 ∨
     makeHalfmoveClock 7 .move_white_king = 7 + 1)) :=
  ⟨by decide, C7_halfmove_clock .move_white_king 7 (by decide)⟩

/-! ## The undo log on promotions (promote.c, capture.c, move.c) -/

/-- board.h: `BOARD_UNDO_LEN_MAX = 6`. -/
def BOARD_UNDO_LEN_MAX : ℕ := 6

/-- The kinds of enemy piece a promotion capture can take on the last
rank: anything but a king (kings are never captured) or a pawn (no pawn
stands on rank 1 or rank 8). -/
inductive CapturedKind : Type
  | queen | rook | rook_castle | bishop | knight
deriving DecidableEq, Fintype

/-- How many `PUSH_UNDO` entries the `take_xxx` function for a captured
piece appends (capture.c): the generic queen/rook/bishop/knight/pawn
takes push exactly one entry for the spliced last piece;
`take_white_rook_castle`/`take_black_rook_castle` push one more when the
king must be demoted (capture.c:239-242, 281-284); `take_knight_generic`
pushes one more when the captured knight must be swapped with the last
knight (capture.c:577-582). -/
def takePushes (k : CapturedKind) (kingDemote knightSwap : Bool) : ℕ :=
  match k with
  | .queen => 1
  | .rook => 1
  | .rook_castle => (if kingDemote then 1 else 0) + 1
  | .bishop => 1
  | .knight => 1 + (if knightSwap then 1 else 0)

/-- The undo-log length when a promotion maker reaches its final
spare-slot write (promote.c): `board_make_move` records the from and to
squares (`undo_len = 2`, move.c:119-123); the promotion maker repairs the
`to` entry in place (no push), lets `take_piece` push its entries when
the promotion captures, and pushes one more entry when a knight
promotion has to swap the new knight into the knight block of the piece
list (promote.c:668-688, 1353-1373). -/
def promoteUndoLen (p : PromPiece) (captured : Option CapturedKind)
    (kingDemote takeKnightSwap promoKnightSwap : Bool) : ℕ :=
  2 +
  (match captured with
   | none => 0
   | some k => takePushes k kingDemote takeKnightSwap) +
  (match p, promoKnightSwap with
   | .knight, true => 1
   | _, _ => 0)

/-- C10: on every promotion transition (all eight promote functions,
with or without capture, whatever the captured piece and whichever of
the conditional pushes fire), the undo-log length at the moment the
promoted piece kind is written into the spare slot `undo[undo_len]` is
strictly below `BOARD_UNDO_LEN_MAX = 6`, so the write stays inside the
`undo[6]` array.  The worst case is 5: a knight promotion capturing a
knight that needs both the last-piece splice, the knight-block swap of
the capture, and the knight-block swap of the promotion. -/
theorem C10_promotion_undo_len :
    BOARD_UNDO_LEN_MAX = 6 ∧
    ∀ (p : PromPiece) (captured : Option CapturedKind)
      (kingDemote takeKnightSwap promoKnightSwap : Bool),
      promoteUndoLen p captured kingDemote takeKnightSwap promoKnightSwap <
        BOARD_UNDO_LEN_MAX := by
  decide

/-! ## Perft node counting (rmoves.c, move.c)

`board_perft` interacts with the position only through
`board_generate_all_moves`, `board_make_move` and `board_undo_move`, and
make followed by undo restores the position, so the node-counter
bookkeeping of rmoves.c is determined by the abstract game tree of the
position: each tree node is a position, its children the positions the
generated moves lead to.  The board state relevant to perft is the
current ply, the stack of parent positions, and the per-frame
`node_counter` array (board.h:354), which no operation ever resets. -/

/-- An abstract game tree: a position together with the positions its
generated legal moves lead to. -/
inductive GTree : Type
  | node : List GTree → GTree

/-- The positions one generated move away. -/
def GTree.children : GTree → List GTree
  | .node cs => cs

/-- The number of depth-`d` leaves below a position: the number perft is
meant to compute. -/
def treeCountD : ℕ → GTree → ℕ
  | 0, _ => 1
  | d + 1, t => (t.children.map (treeCountD d)).sum

/-- The perft-relevant slice of `struct board`: the current ply (index of
`bd->current` within the stack), the parent positions, the current
position, and the per-frame node counters. -/
structure PerftBoard : Type where
  ply : ℕ
  path : List GTree
  cur : GTree
  counters : ℕ → ℕ

/-- Add `k` to entry `i` of a counter array. -/
def bump (f : ℕ → ℕ) (i k : ℕ) : ℕ → ℕ :=
  fun j => if j = i then f j + k else f j

/-- The effect of `board_make_move` on the perft-relevant state: advance
the stack pointer and increment the node counter of the frame the move
lands in (`frame->node_counter++`, move.c:97-103). -/
def makeMove (b : PerftBoard) (child : GTree) : PerftBoard :=
  { ply := b.ply + 1
    path := b.cur :: b.path
    cur := child
    counters := bump b.counters (b.ply + 1) 1 }

/-- The effect of `board_undo_move`: pop one stack frame
(move.c:173-177).  Node counters are static frame data and are not
restored. -/
def undoMove (b : PerftBoard) : PerftBoard :=
  match b.path with
  | [] => b
  | p :: rest => { ply := b.ply - 1, path := rest, cur := p, counters := b.counters }

/-- The leaf step of the recursive `perft` (rmoves.c:74-86, case
`depth_minus_1 == 0`): make the move, generate, add the number of
generated moves to `bd->current[+1].node_counter`, undo. -/
def perftLeafStep (bb : PerftBoard) (m : GTree) : PerftBoard :=
  let b1 := makeMove bb m
  undoMove { b1 with counters := bump b1.counters (b1.ply + 1) m.children.length }

/-- The recursive inner `perft` of rmoves.c:68-87: for each move in the
list, make it, generate the new moves, then either count them into the
node counter one frame further down (when `depth_minus_1 == 0`) or
recurse, and undo. -/
def perft : ℕ → PerftBoard → List GTree → PerftBoard
  | 0, b, moves => moves.foldl perftLeafStep b
  | dm1 + 1, b, moves =>
    moves.foldl (fun bb m => undoMove (perft dm1 (makeMove bb m) m.children)) b

/-- `board_perft` (rmoves.c:31-53): depth 0 returns 1; depth 1 returns
the number of generated moves; otherwise it runs the recursive `perft`
at `depth - 2` and reads the accumulated node counter of the frame
`depth` slots above the current one. -/
def board_perft (b : PerftBoard) (depth : ℕ) : ℕ × PerftBoard :=
  if depth = 0 then (1, b)
  else
    let moves := b.cur.children
    if depth = 1 then (moves.length, b)
    else
      let b2 := perft (depth - 2) b moves
      (b2.counters (b2.ply + depth), b2)

/-- A position with exactly one legal move, whose reply position again
has exactly one legal move. -/
def lineTree : GTree := .node [.node [.node []]]

/-- A freshly set-up board: `board_setup` zeroes the whole stack
(layout.c:572), so every node counter is 0. -/
def freshBoard : PerftBoard := ⟨0, [], lineTree, fun _ => 0⟩

/-- C6 counterexample: `board_perft` at depth 2 on a freshly set-up
one-line position returns 1; invoked a second time in succession on the
same position object (with no intervening changes) it returns 2, because
the node counter it reads (`bd->current[depth].node_counter`,
rmoves.c:48) is never reset between invocations.  Perft is therefore not
deterministic in the sense of the claim for depth at least 2. -/
theorem C6_counterexample :
    (board_perft freshBoard 2).1 = 1 ∧
    (board_perft (board_perft freshBoard 2).2 2).1 = 2 ∧
    (board_perft freshBoard 2).1 ≠ (board_perft (board_perft freshBoard 2).2 2).1 := by
  decide

/-- Unfolding `undoMove` when the parent stack is known to be a cons. -/
theorem undoMove_cons (x : PerftBoard) (p : GTree) (rest : List GTree)
    (h : x.path = p :: rest) :
    undoMove x = ⟨x.ply - 1, rest, p, x.counters⟩ := by
  cases x with
  | mk ply path cur counters =>
    cases h
    rfl

/-- The depth-1 tree count is the number of generated moves. -/
theorem treeCountD_one (t : GTree) : treeCountD 1 t = t.children.length := by
  show (t.children.map (treeCountD 0)).sum = t.children.length
  induction t.children with
  | nil => rfl
  | cons c cs ih =>
    simp [treeCountD, ih]
    omega

/-- What the recursive `perft` does to the board: the stack comes back to
where it was, and at every frame index at or beyond `ply + dm1 + 2` the
node counters are unchanged except at exactly `ply + dm1 + 2`, which
accumulates the perft count of the move list at depth `dm1 + 1`. -/
theorem perft_spec :
    ∀ (dm1 : ℕ) (moves : List GTree) (b : PerftBoard),
      (perft dm1 b moves).ply = b.ply ∧
      (perft dm1 b moves).path = b.path ∧
      (perft dm1 b moves).cur = b.cur ∧
      ∀ j, b.ply + dm1 + 2 ≤ j →
        (perft dm1 b moves).counters j =
          b.counters j +
            (if j = b.ply + dm1 + 2
             then (moves.map (treeCountD (dm1 + 1))).sum else 0) := by
  intro dm1
  induction dm1 with
  | zero =>
    intro moves
    induction moves with
    | nil =>
      intro b
      refine ⟨rfl, rfl, rfl, ?_⟩
      intro j hj
      simp [perft]
    | cons m rest ih =>
      intro b
      obtain ⟨h1, h2, h3, h4⟩ := ih ⟨b.ply, b.path, b.cur,
        bump (bump b.counters (b.ply + 1) 1) (b.ply + 2) m.children.length⟩
      refine ⟨h1, h2, h3, ?_⟩
      intro j hj
      have key : (perft 0 b (m :: rest)).counters j =
          bump (bump b.counters (b.ply + 1) 1) (b.ply + 2)
            m.children.length j +
          (if j = b.ply + 0 + 2
           then (rest.map (treeCountD (0 + 1))).sum else 0) :=
        h4 j hj
      rw [key]
      have hne : j ≠ b.ply + 1 := by omega
      by_cases hcase : j = b.ply + 0 + 2
      · have hc2 : j = b.ply + 2 := by omega
        have hm0 : treeCountD (0 + 1) m = m.children.length := treeCountD_one m
        simp only [bump, if_neg hne, if_pos hc2, if_pos hcase,
          List.map_cons, List.sum_cons, hm0]
        omega
      · have hc2 : j ≠ b.ply + 2 := by omega
        simp only [bump, if_neg hne, if_neg hc2, if_neg hcase]
  | succ d ihd =>
    intro moves
    induction moves with
    | nil =>
      intro b
      refine ⟨rfl, rfl, rfl, ?_⟩
      intro j hj
      simp [perft]
    | cons m rest ih =>
      intro b
      obtain ⟨hc1, hc2, hc3, hc4⟩ := ihd m.children (makeMove b m)
      have hply : (perft d (makeMove b m) m.children).ply = b.ply + 1 := hc1
      have hpath : (perft d (makeMove b m) m.children).path = b.cur :: b.path := hc2
      have hundo : undoMove (perft d (makeMove b m) m.children) =
          ⟨b.ply, b.path, b.cur,
           (perft d (makeMove b m) m.children).counters⟩ := by
        rw [undoMove_cons _ _ _ hpath, hply]
        simp
      have hstep : perft (d + 1) b (m :: rest) =
          perft (d + 1) (undoMove (perft d (makeMove b m) m.children)) rest := rfl
      rw [hstep, hundo]
      obtain ⟨h1, h2, h3, h4⟩ := ih ⟨b.ply, b.path, b.cur,
        (perft d (makeMove b m) m.children).counters⟩
      refine ⟨h1, h2, h3, ?_⟩
      intro j hj
      have key : (perft (d + 1)
            (⟨b.ply, b.path, b.cur,
              (perft d (makeMove b m) m.children).counters⟩ : PerftBoard)
            rest).counters j =
          (perft d (makeMove b m) m.children).counters j +
          (if j = b.ply + (d + 1) + 2
           then (rest.map (treeCountD (d + 1 + 1))).sum else 0) :=
        h4 j hj
      rw [key]
      have key2 : (perft d (makeMove b m) m.children).counters j =
          bump b.counters (b.ply + 1) 1 j +
          (if j = b.ply + 1 + d + 2
           then (m.children.map (treeCountD (d + 1))).sum else 0) :=
        hc4 j (show b.ply + 1 + d + 2 ≤ j by omega)
      rw [key2]
      have hidx : b.ply + 1 + d + 2 = b.ply + (d + 1) + 2 := by omega
      rw [hidx]
      have hm : treeCountD (d + 1 + 1) m =
          (m.children.map (treeCountD (d + 1))).sum := rfl
      have hne : j ≠ b.ply + 1 := by omega
      by_cases hcase : j = b.ply + (d + 1) + 2
      · simp only [bump, if_neg hne, if_pos hcase,
          List.map_cons, List.sum_cons, hm]
        omega
      · simp only [bump, if_neg hne, if_neg hcase]

/-- C6 (amended): `board_perft` invoked on a board whose node counters
above the current frame are all zero — which is the state after every
position setup, since `board_setup` zeroes the whole stack
(layout.c:572) — returns exactly the depth-`d` game-tree count of the
position.  Hence perft is deterministic across invocations that each
start from a fresh setup (and unconditionally for depth at most 1); a
second invocation without an intervening setup instead accumulates, as
the counterexample shows. -/
theorem C6_amended (b : PerftBoard) (depth : ℕ)
    (hzero : ∀ j, b.ply < j → b.counters j = 0) :
    (board_perft b depth).1 = treeCountD depth b.cur := by
  match depth with
  | 0 => rfl
  | 1 => exact (treeCountD_one b.cur).symm
  | (d + 2) =>
    obtain ⟨h1, _, _, h4⟩ := perft_spec d b.cur.children b
    show (perft d b b.cur.children).counters
        ((perft d b b.cur.children).ply + (d + 2)) = treeCountD (d + 2) b.cur
    rw [h1]
    have hidx : b.ply + (d + 2) = b.ply + d + 2 := by omega
    rw [hidx, h4 (b.ply + d + 2) (by omega),
      hzero (b.ply + d + 2) (by omega)]
    simp [treeCountD]

/-- Witness for C6 (amended) on the concrete one-line position: the
fresh board has all counters zero and depth-2 perft returns its tree
count 1. -/
theorem C6_amended_witness :
    (∀ j, freshBoard.ply < j → freshBoard.counters j = 0) ∧
    (board_perft freshBoard 2).1 = treeCountD 2 freshBoard.cur :=
  ⟨fun _ _ => rfl, C6_amended freshBoard 2 (fun _ _ => rfl)⟩

/-! ## Static exchange evaluation (exchange.c)

The packed piece-set words are 15-bit values (exchange.c:62-102): bits
0-11 a mixed-radix multiset counter (pawn + 3·minor + 36·rook +
396·royal), bit 12 the `EXCHANGE_LAST_RANK` flag, bits 13-14 the
"upfront" piece of the attacker word.  The C bit operations on these
small non-negative values are rendered with `%`, `/` on `Nat`
(`x & 0x0fff` is `x % 4096`, `x & 0x1fff` is `x % 8192`, `x >> 13` is
`x / 8192`, testing bit 12 is `x / 4096 % 2 = 1`).  The memoising
`exchange_table` is omitted: a hit only ever returns a value that a
previous miss computed and stored, so the cache does not change the set
of values the function can return. -/

/-- exchange.h: `EXCHANGE_UNIT = 0x0100`. -/
def EXCHANGE_UNIT : ℕ := 0x0100

/-- exchange.h: `EXCHANGE_LIST_PAWN / MINOR / ROOK / ROYAL`, the
mixed-radix weights 1, 3, 36, 396. -/
def EXCHANGE_LIST_PAWN : ℕ := 1

/-- Weight of a minor piece in the packed multiset. -/
def EXCHANGE_LIST_MINOR : ℕ := 3

/-- Weight of a rook in the packed multiset. -/
def EXCHANGE_LIST_ROOK : ℕ := 36

/-- Weight of a queen or king in the packed multiset. -/
def EXCHANGE_LIST_ROYAL : ℕ := 396

/-- exchange.h: `EXCHANGE_LAST_RANK = 1 << 12`. -/
def EXCHANGE_LAST_RANK : ℕ := 4096

/-- exchange.c `next_upfront` (lines 321-344): pick the cheapest piece
present in the mixed-radix counter, remove it from the counter and place
its class in the upfront field (bits 13-14).  The ranges are
`RANGE_PAWN = 3`, `RANGE_MINOR = 12`, `RANGE_ROOK = 11`. -/
def next_upfront (defenders : ℕ) : ℕ :=
  if defenders % 3 ≠ 0 then
    defenders + 0 * 8192 - EXCHANGE_LIST_PAWN
  else if defenders / 3 % 12 ≠ 0 then
    defenders + 1 * 8192 - EXCHANGE_LIST_MINOR
  else if defenders / 36 % 11 ≠ 0 then
    defenders + 2 * 8192 - EXCHANGE_LIST_ROOK
  else
    defenders + 3 * 8192 - EXCHANGE_LIST_ROYAL

/-- The "select next capturer" step of `exchange_evaluate_fn`
(exchange.c:461-492): on the last rank a pawn capturer promotes (the
`LAST_RANK` flag is consumed when the last pawn is used, kept while a
second pawn remains, and simply cleared when no pawn is present);
otherwise the cheapest piece is put upfront. -/
def selectCapturer (defenders : ℕ) : ℕ :=
  if defenders / 4096 % 2 = 1 then
    if defenders % 4096 % 3 = 0 then next_upfront (defenders % 4096)
    else if defenders % 4096 % 3 = 1 then
      defenders + 3 * 8192 - EXCHANGE_LIST_PAWN - EXCHANGE_LAST_RANK
    else defenders + 3 * 8192 - EXCHANGE_LIST_PAWN
  else next_upfront defenders

/-- exchange.c:445-451, the `victim_value` table indexed by the upfront
field: pawn, minor, rook, royal in SEE units. -/
def victimValue : ℕ → ℤ
  | 0 => 1 * 0x0100
  | 1 => 3 * 0x0100
  | 2 => 5 * 0x0100
  | _ => 9 * 0x0100

/-- The promotion bonus of the capturer-selection step: cases 1 and
`default` of the switch add `8 * EXCHANGE_UNIT` (exchange.c:476, 481);
case 0 (no pawn) does not. -/
def promoBonus (defenders : ℕ) : ℤ :=
  if defenders / 4096 % 2 = 1 ∧ defenders % 4096 % 3 ≠ 0 then 8 * 0x0100 else 0

/-- exchange.c:504-506: a negative running result is clipped to 0 (the
side to move may stand pat). -/
def clipStandPat (r : ℤ) : ℤ := if r < 0 then 0 else r

/-- exchange.c:518-520: the final result is clipped at `14 *
EXCHANGE_UNIT` so that it packs into the 4-bit cache field. -/
def clipFourteen (r : ℤ) : ℤ := if r > 14 * 0x0100 then 14 * 0x0100 else r

/-- `next_upfront` removes one piece from the 12-bit counter: on inputs
in `(0, 4096)` the counter value strictly decreases. -/
theorem next_upfront_lt (d : ℕ) (h0 : d ≠ 0) (hlt : d < 4096) :
    next_upfront d % 4096 < d := by
  unfold next_upfront EXCHANGE_LIST_PAWN EXCHANGE_LIST_MINOR
    EXCHANGE_LIST_ROOK EXCHANGE_LIST_ROYAL
  split
  · omega
  · split
    · omega
    · split
      · omega
      · omega

/-- The capturer-selection step strictly decreases the 12-bit counter of
a well-formed non-trivial defender word. -/
theorem selectCapturer_lt (d : ℕ) (h0 : d ≠ 0) (hne : d ≠ 4096)
    (hlt : d < 8192) : selectCapturer d % 4096 < d % 4096 := by
  unfold selectCapturer EXCHANGE_LIST_PAWN EXCHANGE_LAST_RANK
  split
  · rename_i hbit
    split
    · have h1 : d % 4096 ≠ 0 := by omega
      have h2 : d % 4096 < 4096 := by omega
      have h3 := next_upfront_lt (d % 4096) h1 h2
      omega
    · split
      · omega
      · omega
  · rename_i hbit
    have h2 : d < 4096 := by omega
    have h3 := next_upfront_lt d h0 h2
    omega

/-- exchange.c `exchange_evaluate_fn` (lines 395-529), without the
memoising table.  The outer guard is the conjunction of the function's
entry assertions (exchange.c:400-405: `defenders != 0`, a 13-bit
defender word, a 15-bit attacker word, not both words carrying
`LAST_RANK`); outside that domain the C function's behaviour is
undefined and the model returns 0.  Inside it: the gain starts at the
value of the upfront attacker's prey, a defender word that is only the
`LAST_RANK` flag yields 0 (exchange.c:457-459), otherwise the cheapest
defender capturer is selected (promoting on the last rank), the
recursion with sides swapped and the upfront attacker removed is
subtracted with stand-pat clipping at 0, and the final result is clipped
at `14 * EXCHANGE_UNIT`. -/
def exchange_evaluate_fn (defenders attackers : ℕ) : ℤ :=
  if defenders = 0 ∨ 8192 ≤ defenders ∨ 32768 ≤ attackers ∨
      (defenders / 4096 % 2 = 1 ∧ attackers / 4096 % 2 = 1) then 0
  else if defenders = EXCHANGE_LAST_RANK then 0
  else
    clipFourteen
      (if h : attackers % 8192 = 0 then
        victimValue (attackers / 8192) + promoBonus defenders
      else
        clipStandPat
          (victimValue (attackers / 8192) + promoBonus defenders -
            exchange_evaluate_fn (attackers % 8192) (selectCapturer defenders)))
termination_by defenders % 4096 + attackers % 4096
decreasing_by
  rename_i hdom hlast
  have h0 : defenders ≠ 0 := by tauto
  have h8 : defenders < 8192 := by omega
  have hne : defenders ≠ 4096 := fun hc => hlast (by rw [hc]; rfl)
  have hdec := selectCapturer_lt defenders h0 hne h8
  omega

/-- Every value `exchange_evaluate_fn` can return is in
`[0, 14 * EXCHANGE_UNIT]`: each return path is either the literal 0, the
stand-pat-clipped or inherently non-negative gain put through the final
clip at 14 units. -/
theorem clipStandPat_nonneg (r : ℤ) : 0 ≤ clipStandPat r := by
  unfold clipStandPat
  split <;> omega

/-- The final clip keeps non-negative inputs within `[0, 14 units]`. -/
theorem clipFourteen_range (r : ℤ) (h : 0 ≤ r) :
    0 ≤ clipFourteen r ∧ clipFourteen r ≤ 14 * 0x0100 := by
  unfold clipFourteen
  split <;> omega

theorem exchange_evaluate_fn_range (defenders attackers : ℕ) :
    0 ≤ exchange_evaluate_fn defenders attackers ∧
    exchange_evaluate_fn defenders attackers ≤ 14 * 0x0100 := by
  rw [exchange_evaluate_fn]
  split
  · norm_num
  · split
    · norm_num
    · refine clipFourteen_range _ ?_
      split
      · have hv : 0 ≤ victimValue (attackers / 8192) := by
          unfold victimValue
          split <;> norm_num
        have hb : 0 ≤ promoBonus defenders := by
          unfold promoBonus
          split <;> norm_num
        omega
      · exact clipStandPat_nonneg _

/-- C8: for every valid pair of packed piece-set words — a non-zero
13-bit defenders word and a 15-bit attackers word, not both carrying the
`LAST_RANK` bit — the static exchange evaluation returns a value in the
range `[0, 14 * EXCHANGE_UNIT]`: never negative because the side to move
may stand pat, and clipped at 14 units so it packs into the 4-bit cache
field. -/
theorem C8_exchange_range (defenders attackers : ℕ)
    (h1 : defenders ≠ 0) (h2 : defenders < 8192) (h3 : attackers < 32768)
    (h4 : ¬(defenders / 4096 % 2 = 1 ∧ attackers / 4096 % 2 = 1)) :
    0 ≤ exchange_evaluate_fn defenders attackers ∧
    exchange_evaluate_fn defenders attackers ≤ 14 * EXCHANGE_UNIT :=
  exchange_evaluate_fn_range defenders attackers

/-- Witness for C8 at a concrete valid pair: a lone defending pawn
against a lone upfront pawn. -/
theorem C8_exchange_range_witness :
    ((1 : ℕ) ≠ 0 ∧ (1 : ℕ) < 8192 ∧ (0 : ℕ) < 32768 ∧
     ¬((1 : ℕ) / 4096 % 2 = 1 ∧ (0 : ℕ) / 4096 % 2 = 1)) ∧
    (0 ≤ exchange_evaluate_fn 1 0 ∧
     exchange_evaluate_fn 1 0 ≤ 14 * EXCHANGE_UNIT) :=
  ⟨⟨by decide, by decide, by decide, by decide⟩,
   C8_exchange_range 1 0 (by decide) (by decide) (by decide) (by decide)⟩

/-! ## The en-passant generator (generate.c:2925-3205)

`generate_en_passant` is the helper through which every entry point
emits en-passant moves (board_generate_captures_and_promotions at
generate.c:1265-1267 and board_generate_escapes at 1369-1395, each
guarded by `en_passant_lazy != 0`).  The embedding below carries the
whole stack frame so that the function's one write to it — clearing an
expired `en_passant_lazy` — is visible.  Squares are `Int` here because
the C walks add signed step vectors. -/

/-- board.h `struct board_side`, with the square-indexed attack array
and the piece list as functions. -/
structure BoardSide : Type where
  attacks : ℤ → ℕ
  bishop_diagonals : ℕ
  pieces : ℕ → ℤ
  nr_pieces : ℕ
  color : ℕ
  last_rank_pawns : ℕ

/-- board.h `struct board_stack_frame`, every field. -/
structure StackFrame : Type where
  active : BoardSide
  passive : BoardSide
  undo_len : ℕ
  undo : ℕ → ℕ × ℕ
  node_counter : ℕ
  halfmove_clock : ℕ
  en_passant_lazy : ℕ
  en_passant_node_counter : ℕ
  board_hash_lazy : ℕ
  pawn_king_hash : ℕ
  material_key : ℕ
  killer_moves : ℕ → ℕ

/-- The parts of `struct board` outside the stack that the generator
reads: the squares (piece codes, `board_empty = 0`) and the butterfly
prescore table. -/
structure BoardArrays : Type where
  squares : ℤ → ℕ
  butterfly : ℕ → ℕ

/-- A generated `union board_move`: move word, prescore, move maker. -/
structure BoardMove : Type where
  move : ℕ
  prescore : ℕ
  make : MoveMaker

/-- board.h: `board_attack_pawn_west = 0x0200`. -/
def board_attack_pawn_west : ℕ := 0x0200

/-- board.h: `board_attack_pawn_east = 0x0400`. -/
def board_attack_pawn_east : ℕ := 0x0400

/-- board.h: `BOARD_ATTACK_QUEEN`, the OR of the eight ray bits. -/
def BOARD_ATTACK_QUEEN : ℕ := 0xFF

/-- board.h: `BOARD_ATTACK_REVERSE(dir) = (((dir) << 4) | ((dir) >> 4)) &
BOARD_ATTACK_QUEEN`. -/
def BOARD_ATTACK_REVERSE (dir : ℕ) : ℕ :=
  ((dir <<< 4) ||| (dir >>> 4)) &&& BOARD_ATTACK_QUEEN

/-- intern.h: `DEBRUIJN_INDEX(n) = (((n) * 23) >> 5) & 7`. -/
def DEBRUIJN_INDEX (n : ℕ) : ℕ := n * 23 / 32 % 8

/-- layout.c:115-124: `board_vector_step_compact`, the step vector of
each direction at its De-Bruijn index (north = +1, northeast = +9, east
= +8, south = -1, northwest = -7, southeast = +7, west = -8, southwest =
-9). -/
def board_vector_step_compact : ℕ → ℤ
  | 0 => 1
  | 1 => 9
  | 2 => 8
  | 3 => -1
  | 4 => -7
  | 5 => 7
  | 6 => -8
  | 7 => -9
  | _ => 0

/-- `data_sq2sq` lifted to the signed squares of this section (the C
walks never index it out of `0..63` on a consistent board). -/
def sq2sqZ (a b : ℤ) : ℕ :=
  if 0 ≤ a ∧ a < 64 ∧ 0 ≤ b ∧ b < 64 then data_sq2sq a.toNat b.toNat else 0

/-- The `do { sq += step; } while (squares[sq] == empty)` walk of the
en-passant pin check (generate.c:3026-3030 and the three symmetric
copies), with fuel: on a consistent board the walk meets a piece within
the 7-square ray length, as the C asserts. -/
def walkToPiece (squares : ℤ → ℕ) (step : ℤ) : ℕ → ℤ → ℤ
  | 0, sq => sq
  | fuel + 1, sq =>
    let sq2 := sq + step
    if squares sq2 = 0 then walkToPiece squares step fuel sq2 else sq2

/-- exchange.h: `EXCHANGE_NEUTRAL = 0x0f00`. -/
def EXCHANGE_NEUTRAL : ℕ := 0x0F00

/-- exchange.h: `EXCHANGE_GOOD_MOVE_OFFSET = 0xf000 - EXCHANGE_NEUTRAL`. -/
def EXCHANGE_GOOD_MOVE_OFFSET : ℕ := 0xF000 - EXCHANGE_NEUTRAL

/-- The `GENERATE_EP` macro (generate.c:209-222): emit `MOVE(from, to)`
with the fixed good-move prescore OR-ed over the butterfly byte. -/
def mkEpMove (bd : BoardArrays) (a b : ℤ) (maker : MoveMaker) : BoardMove :=
  { move := MOVE a.toNat b.toNat
    prescore := bd.butterfly (MOVE a.toNat b.toNat) |||
      (EXCHANGE_NEUTRAL + EXCHANGE_UNIT + EXCHANGE_GOOD_MOVE_OFFSET)
    make := maker }

/-- One colour/direction block of `generate_en_passant`
(generate.c:2987-3039 and its three symmetric copies): compute the
uncovered-attack directions on the king after the capture — the rays
attacking the capturing pawn except along the capture, plus a horizontal
attack through the captured pawn — intersect with the direction towards
the own king, and if one survives, walk towards the king (hopping the
captured pawn on the horizontal) to see whether the king is really
exposed; emit the move when it is not.  `capDir` is the capture
direction bit, `hopBit` the east/west bit of the block, `horizSq` the
captured pawn's square. -/
def epBlock (bd : BoardArrays) (f : StackFrame) (b a horizSq : ℤ)
    (capDir hopBit : ℕ) (maker : MoveMaker) : List BoardMove :=
  let king := f.active.pieces 0
  let pin1 := f.passive.attacks a &&& BOARD_ATTACK_QUEEN &&&
    (BOARD_ATTACK_QUEEN ^^^ capDir) &&&
    (BOARD_ATTACK_QUEEN ^^^ BOARD_ATTACK_REVERSE capDir)
  let pin2 := (pin1 |||
    (f.passive.attacks horizSq &&& BOARD_ATTACK_REVERSE hopBit)) &&&
    sq2sqZ a king
  let pin3 :=
    if pin2 ≠ 0 then
      let step := board_vector_step_compact (DEBRUIJN_INDEX pin2)
      let sq0 := if pin2 = hopBit then a + step else a
      if walkToPiece bd.squares step 64 sq0 ≠ king then 0 else pin2
    else 0
  if pin3 = 0 then [mkEpMove bd a b maker] else []

/-- generate.c:2925-3205, `generate_en_passant`: if the en-passant
freshness token does not match the frame's node counter, the flag has
expired — clear it and emit nothing (generate.c:2937-2944).  Otherwise
try the east and then the west capturing pawn for the side to move, each
through the bespoke pin check.  The function returns the emitted moves
and the (possibly updated) frame. -/
def generate_en_passant (bd : BoardArrays) (f : StackFrame) :
    List BoardMove × StackFrame :=
  if f.node_counter ≠ f.en_passant_node_counter then
    ([], { f with en_passant_lazy := 0 })
  else
    let toSq : ℤ := (f.en_passant_lazy : ℤ)
    let east :=
      if f.active.attacks toSq &&& board_attack_pawn_east ≠ 0 then
        if f.active.color = 0 then
          epBlock bd f toSq (toSq - 9) (toSq - 1) (dirBit .ne) (dirBit .e)
            .enpassant_with_white_pawn
        else
          epBlock bd f toSq (toSq - 7) (toSq + 1) (dirBit .se) (dirBit .e)
            .enpassant_with_black_pawn
      else []
    let west :=
      if f.active.attacks toSq &&& board_attack_pawn_west ≠ 0 then
        if f.active.color = 0 then
          epBlock bd f toSq (toSq + 7) (toSq - 1) (dirBit .nw) (dirBit .w)
            .enpassant_with_white_pawn
        else
          epBlock bd f toSq (toSq + 9) (toSq + 1) (dirBit .sw) (dirBit .w)
            .enpassant_with_black_pawn
      else []
    (east ++ west, f)

/-- C9: in every position in which `en_passant_lazy` is non-zero but the
frame's `en_passant_node_counter` differs from the frame's current
`node_counter`, move generation emits zero en-passant moves: the stale
flag is recognised as expired and treated as if no en-passant right
exists. -/
theorem C9_stale_ep_no_moves (bd : BoardArrays) (f : StackFrame)
    (hlazy : f.en_passant_lazy ≠ 0)
    (hstale : f.node_counter ≠ f.en_passant_node_counter) :
    (generate_en_passant bd f).1 = [] := by
  unfold generate_en_passant
  rw [if_pos hstale]

/-- An all-zero side record. -/
def zeroSide : BoardSide := ⟨fun _ => 0, 0, fun _ => 0, 0, 0, 0⟩

/-- A concrete frame holding a stale en-passant flag on e3: the flag was
set when `node_counter` was 0, but a move has landed on this frame
since (`node_counter = 1`). -/
def staleFrame : StackFrame :=
  { active := zeroSide
    passive := zeroSide
    undo_len := 0
    undo := fun _ => (0, 0)
    node_counter := 1
    halfmove_clock := 0
    en_passant_lazy := 34
    en_passant_node_counter := 0
    board_hash_lazy := 0
    pawn_king_hash := 0
    material_key := 0
    killer_moves := fun _ => 0 }

/-- An empty board. -/
def zeroArrays : BoardArrays := ⟨fun _ => 0, fun _ => 0⟩

/-- Witness for C9 at the concrete stale frame. -/
theorem C9_stale_ep_no_moves_witness :
    (staleFrame.en_passant_lazy ≠ 0 ∧
     staleFrame.node_counter ≠ staleFrame.en_passant_node_counter) ∧
    (generate_en_passant zeroArrays staleFrame).1 = [] :=
  ⟨⟨by decide, by decide⟩,
   C9_stale_ep_no_moves zeroArrays staleFrame (by decide) (by decide)⟩

/-- C5 counterexample: the claim says every generator leaves every field
of the current stack frame — including `en_passant_lazy` — unchanged.
But on a frame whose en-passant token has expired, `generate_en_passant`
(reached from the entry points whenever `en_passant_lazy != 0`) writes
`en_passant_lazy = 0` (generate.c:2942): the returned frame differs from
the input frame. -/
theorem C5_counterexample :
    staleFrame.en_passant_lazy = 34 ∧
    (generate_en_passant zeroArrays staleFrame).2.en_passant_lazy = 0 ∧
    (generate_en_passant zeroArrays staleFrame).2 ≠ staleFrame := by
  refine ⟨rfl, rfl, ?_⟩
  intro h
  have h2 := congrArg StackFrame.en_passant_lazy h
  simp [generate_en_passant, staleFrame] at h2

/-- C5 (amended): the generators never mutate the frame they read except
for one documented write: `generate_en_passant` — the only code in the
move generator that writes to the frame — clears `en_passant_lazy` to 0
exactly when the freshness token has expired (the clear that
board.h:376-388 prescribes, to prevent repeated false hits); on a fresh
token the frame comes back identical, and no other field is ever
touched. -/
theorem C5_amended (bd : BoardArrays) (f : StackFrame) :
    (generate_en_passant bd f).2 =
      if f.node_counter ≠ f.en_passant_node_counter
      then { f with en_passant_lazy := 0 } else f := by
  by_cases h : f.node_counter ≠ f.en_passant_node_counter
  · rw [if_pos h]
    unfold generate_en_passant
    rw [if_pos h]
  · rw [if_neg h]
    unfold generate_en_passant
    rw [if_neg h]

/-! ## Make / undo roundtrip (move.c, capture.c, castle.c, enpassant.c,
promote.c)

`board_make_move` (move.c:77-140) copies and swaps the two side records
into the next stack frame, records the move's from/to squares and their
current `board_square` contents in the new frame's undo log, and then
dispatches to one of 45 specialized move makers.  The makers mutate only
`bd->squares[]` (recording, with `PUSH_UNDO`, every additionally touched
square before its first write) and fields of the NEW frame
(`bd->current`, after the increment).  `board_undo_move`
(move.c:149-178) replays `undo[0..undo_len-1]` onto `bd->squares` in
increasing order and pops the frame.

The embedding models exactly that footprint: a small operation language
`SqOp` for the `bd->squares[]` writes and `PUSH_UNDO` calls, a trace per
maker transcribed from its source lines (in source order), and the two
board entry points.  Values read by a maker from the piece lists of the
new frame (the `other` square of the capture splice, the knight-swap
squares, the scan results in the knight promotions) are parameters of
the trace, and the facts the board invariants give about them (they
hold pieces of a given side, hence differ from specific other squares)
become the hypotheses `makerWf`.  All remaining new-frame fields
(hashes, clocks, piece lists, attacks) are bundled as an arbitrary
`StackFrame` payload: the undo only reads the undo log, so the theorem
holds for every payload, in particular the computed one. -/

/-- board.h `enum board_piece`: `board_empty = 0` (line 102). -/
def board_empty : ℕ := 0

/-- board.h: `board_white_king = 2`. -/
def board_white_king : ℕ := 2

/-- board.h: `board_black_king = 3`. -/
def board_black_king : ℕ := 3

/-- board.h: `board_white_knight = 6`. -/
def board_white_knight : ℕ := 6

/-- board.h: `board_black_knight = 7`. -/
def board_black_knight : ℕ := 7

/-- board.h: `board_white_pawn = 10`. -/
def board_white_pawn : ℕ := 10

/-- board.h: `board_black_pawn = 11`. -/
def board_black_pawn : ℕ := 11

/-- board.h: `board_white_pawn_rank7 = 12` (can promote). -/
def board_white_pawn_rank7 : ℕ := 12

/-- board.h: `board_black_pawn_rank2 = 13` (can promote). -/
def board_black_pawn_rank2 : ℕ := 13

/-- board.h: `board_white_bishop_light = 14`. -/
def board_white_bishop_light : ℕ := 14

/-- board.h: `board_black_bishop_light = 15`. -/
def board_black_bishop_light : ℕ := 15

/-- board.h: `board_white_bishop_dark = 16`. -/
def board_white_bishop_dark : ℕ := 16

/-- board.h: `board_black_bishop_dark = 17`. -/
def board_black_bishop_dark : ℕ := 17

/-- board.h: `board_white_rook = 18`. -/
def board_white_rook : ℕ := 18

/-- board.h: `board_black_rook = 19`. -/
def board_black_rook : ℕ := 19

/-- board.h: `board_white_queen = 22`. -/
def board_white_queen : ℕ := 22

/-- board.h: `board_black_queen = 23`. -/
def board_black_queen : ℕ := 23

/-- Square `A1 = BOARD_SQUARE(0,0) = 0` in the file-major layout. -/
def A1 : ℕ := 0

/-- Square `C1 = BOARD_SQUARE(2,0) = 16`. -/
def C1 : ℕ := 16

/-- Square `D1 = BOARD_SQUARE(3,0) = 24`. -/
def D1 : ℕ := 24

/-- Square `E1 = BOARD_SQUARE(4,0) = 32`. -/
def E1 : ℕ := 32

/-- Square `F1 = BOARD_SQUARE(5,0) = 40`. -/
def F1 : ℕ := 40

/-- Square `G1 = BOARD_SQUARE(6,0) = 48`. -/
def G1 : ℕ := 48

/-- Square `H1 = BOARD_SQUARE(7,0) = 56`. -/
def H1 : ℕ := 56

/-- Square `A8 = BOARD_SQUARE(0,7) = 7`. -/
def A8 : ℕ := 7

/-- Square `C8 = BOARD_SQUARE(2,7) = 23`. -/
def C8 : ℕ := 23

/-- Square `D8 = BOARD_SQUARE(3,7) = 31`. -/
def D8 : ℕ := 31

/-- Square `E8 = BOARD_SQUARE(4,7) = 39`. -/
def E8 : ℕ := 39

/-- Square `F8 = BOARD_SQUARE(5,7) = 47`. -/
def F8 : ℕ := 47

/-- Square `G8 = BOARD_SQUARE(6,7) = 55`. -/
def G8 : ℕ := 55

/-- Square `H8 = BOARD_SQUARE(7,7) = 63`. -/
def H8 : ℕ := 63

/-- One primitive effect of a move maker on `bd->squares[]` or the undo
log: `push x` is `PUSH_UNDO(bd->current, x)` (intern.h:151-156, which
records the pair `(x, bd->squares[x])`); `repairTo x` is the promotion
repair `undo[UNDO_TO] = (x, bd->squares[x])` (promote.c:92-93);
`setPiece` / `setIndex` write one field of `bd->squares[x]`; `copy`
is `bd->squares[dst] = bd->squares[src]`; `copyIndex` is
`bd->squares[dst].index = bd->squares[src].index`. -/
inductive SqOp : Type
  | push (x : ℕ)
  | repairTo (x : ℕ)
  | setPiece (x p : ℕ)
  | setIndex (x i : ℕ)
  | copy (dst src : ℕ)
  | copyIndex (dst src : ℕ)

/-- capture.c take_queen_generic (lines 169-204), squares/undo slice. -/
def take_queen_generic (sq other : ℕ) : List SqOp :=
  [.push other, .copyIndex other sq]

/-- capture.c take_rook_generic (lines 302-337), squares/undo slice. -/
def take_rook_generic (sq other : ℕ) : List SqOp :=
  [.push other, .copyIndex other sq]

/-- capture.c take_bishop_generic (lines 420-458), squares/undo slice. -/
def take_bishop_generic (sq other : ℕ) : List SqOp :=
  [.push other, .copyIndex other sq]

/-- capture.c take_knight_generic (lines 519-608): the generic splice,
preceded (when the captured knight is not the last knight and knights
are followed by other pieces) by a swap with the last knight
`square_b = pieces[last_knight]`, where `square_a = pieces[index]` is
the captured square itself.  The stored index values `last_knight` and
`index` are the list positions read by the C code. -/
def take_knight_generic (sq other squareA squareB lastKnight idx : ℕ)
    (sw : Bool) : List SqOp :=
  [.push other] ++
  (if sw then
    [.push squareB, .setIndex squareA lastKnight, .setIndex squareB idx]
  else []) ++
  [.setIndex other (if sw then lastKnight else idx)]

/-- capture.c take_white_pawn (lines 633-674), squares/undo slice
(take_white_pawn_rank7 adds only a `last_rank_pawns` frame update). -/
def take_white_pawn (sq other : ℕ) : List SqOp :=
  [.push other, .copyIndex other sq]

/-- capture.c take_black_pawn (lines 700-741), squares/undo slice. -/
def take_black_pawn (sq other : ℕ) : List SqOp :=
  [.push other, .copyIndex other sq]

/-- The dispatched `capture_take_piece_fn` (capture.c:94-118) with the
values its body reads from the piece lists as parameters: `other` is
the splice square; the knight takes carry the swap data; the rook-castle
takes carry the king-demotion condition
`squares[other corner].piece != rook_castle` (capture.c:239, 281). -/
inductive TakeFn : Type
  | take_white_queen (other : ℕ)
  | take_black_queen (other : ℕ)
  | take_white_rook (other : ℕ)
  | take_black_rook (other : ℕ)
  | take_white_rook_castle (other : ℕ) (demote : Bool)
  | take_black_rook_castle (other : ℕ) (demote : Bool)
  | take_white_bishop_light (other : ℕ)
  | take_white_bishop_dark (other : ℕ)
  | take_black_bishop_light (other : ℕ)
  | take_black_bishop_dark (other : ℕ)
  | take_white_knight (other squareA squareB lastKnight idx : ℕ) (sw : Bool)
  | take_black_knight (other squareA squareB lastKnight idx : ℕ) (sw : Bool)
  | take_white_pawn (other : ℕ)
  | take_white_pawn_rank7 (other : ℕ)
  | take_black_pawn (other : ℕ)
  | take_black_pawn_rank2 (other : ℕ)

/-- Trace of a take function applied to the captured square `sq`.  The
`take_white_rook_castle` (capture.c:234-253) and black mirror first
demote the castling king on E1/E8 (with its own `PUSH_UNDO`) when the
other corner rook has lost its castle tag; the hash-only wrappers
(take_white_queen etc.) share their generic part. -/
def takeOps : TakeFn → ℕ → List SqOp
  | .take_white_queen other, sq => take_queen_generic sq other
  | .take_black_queen other, sq => take_queen_generic sq other
  | .take_white_rook other, sq => take_rook_generic sq other
  | .take_black_rook other, sq => take_rook_generic sq other
  | .take_white_rook_castle other demote, sq =>
      (if demote then [.push E1, .setPiece E1 board_white_king] else []) ++
      take_rook_generic sq other
  | .take_black_rook_castle other demote, sq =>
      (if demote then [.push E8, .setPiece E8 board_black_king] else []) ++
      take_rook_generic sq other
  | .take_white_bishop_light other, sq => take_bishop_generic sq other
  | .take_white_bishop_dark other, sq => take_bishop_generic sq other
  | .take_black_bishop_light other, sq => take_bishop_generic sq other
  | .take_black_bishop_dark other, sq => take_bishop_generic sq other
  | .take_white_knight other a b lk i sw, sq =>
      take_knight_generic sq other a b lk i sw
  | .take_black_knight other a b lk i sw, sq =>
      take_knight_generic sq other a b lk i sw
  | .take_white_pawn other, sq => take_white_pawn sq other
  | .take_white_pawn_rank7 other, sq => take_white_pawn sq other
  | .take_black_pawn other, sq => take_black_pawn sq other
  | .take_black_pawn_rank2 other, sq => take_black_pawn sq other

/-- move.c move_king_generic (lines 400-464): move the piece, clear the
origin (`squares[to] = squares[from]; squares[from].index = 0;
squares[from].piece = board_empty`). -/
def move_king_generic (f t : ℕ) : List SqOp :=
  [.copy t f, .setIndex f 0, .setPiece f board_empty]

/-- move.c move_rook_generic (lines 687-742), same squares slice. -/
def move_rook_generic (f t : ℕ) : List SqOp :=
  [.copy t f, .setIndex f 0, .setPiece f board_empty]

/-- move.c move_white_king_castle (lines 269-304): drop all castling
tags (the king's own square is rewritten in place, relying on the entry
undo record; each corner demotion records its square first), then move
as a regular king. -/
def move_white_king_castle (f t : ℕ) (a1d h1d : Bool) : List SqOp :=
  [.setPiece E1 board_white_king] ++
  (if a1d then [.push A1, .setPiece A1 board_white_rook] else []) ++
  (if h1d then [.push H1, .setPiece H1 board_white_rook] else []) ++
  move_king_generic f t

/-- move.c move_black_king_castle (lines 311-346), black mirror. -/
def move_black_king_castle (f t : ℕ) (a8d h8d : Bool) : List SqOp :=
  [.setPiece E8 board_black_king] ++
  (if a8d then [.push A8, .setPiece A8 board_black_rook] else []) ++
  (if h8d then [.push H8, .setPiece H8 board_black_rook] else []) ++
  move_king_generic f t

/-- move.c move_white_rook_castle (lines 578-606): untag the moving
rook in place, demote the king on E1 (recording it) when the other
corner can no longer castle, then move as a regular rook. -/
def move_white_rook_castle (f t : ℕ) (kd : Bool) : List SqOp :=
  [.setPiece f board_white_rook] ++
  (if kd then [.push E1, .setPiece E1 board_white_king] else []) ++
  move_rook_generic f t

/-- move.c move_black_rook_castle (lines 613-641), black mirror. -/
def move_black_rook_castle (f t : ℕ) (kd : Bool) : List SqOp :=
  [.setPiece f board_black_rook] ++
  (if kd then [.push E8, .setPiece E8 board_black_king] else []) ++
  move_rook_generic f t

/-- move.c move_white_pawn (lines 1018-1092): move the pawn, tagging it
`rank7` when it lands on the seventh rank, and clear the origin. -/
def move_white_pawn (f t : ℕ) (r7 : Bool) : List SqOp :=
  [.copy t f] ++
  (if r7 then [.setPiece t board_white_pawn_rank7] else []) ++
  [.setIndex f 0, .setPiece f board_empty]

/-- move.c move_white_pawn_rank2_to_3 (lines 977-989): untag the
rank-2 pawn in place, then move as a regular pawn. -/
def move_white_pawn_rank2_to_3 (f t : ℕ) (r7 : Bool) : List SqOp :=
  [.setPiece f board_white_pawn] ++ move_white_pawn f t r7

/-- move.c move_white_pawn_rank2_to_4 (lines 996-1011): same squares
slice; additionally sets the new frame's `en_passant_lazy` and
`en_passant_node_counter` (frame fields, not squares). -/
def move_white_pawn_rank2_to_4 (f t : ℕ) (r7 : Bool) : List SqOp :=
  [.setPiece f board_white_pawn] ++ move_white_pawn f t r7

/-- move.c move_black_pawn (lines 1146-1220), black mirror (tags
`rank2` on the second rank). -/
def move_black_pawn (f t : ℕ) (r2 : Bool) : List SqOp :=
  [.copy t f] ++
  (if r2 then [.setPiece t board_black_pawn_rank2] else []) ++
  [.setIndex f 0, .setPiece f board_empty]

/-- move.c move_black_pawn_rank7_to_6 (lines 1105-1117). -/
def move_black_pawn_rank7_to_6 (f t : ℕ) (r2 : Bool) : List SqOp :=
  [.setPiece f board_black_pawn] ++ move_black_pawn f t r2

/-- move.c move_black_pawn_rank7_to_5 (lines 1124-1139), which also
sets the new frame's en-passant fields. -/
def move_black_pawn_rank7_to_5 (f t : ℕ) (r2 : Bool) : List SqOp :=
  [.setPiece f board_black_pawn] ++ move_black_pawn f t r2

/-! ### Castling makers (castle.c), squares/undo slice -/

/-- castle.c castle_white_king_side (lines 71-159): record H1 and F1,
move the king E1 to G1 and the rook H1 to F1 (king's and rook's
from/to writes in source order), then demote the A1 rook when it still
carries the castle tag. -/
def castle_white_king_side (od : Bool) : List SqOp :=
  [.push H1, .push F1,
   .setPiece G1 board_white_king, .setIndex G1 0,
   .setPiece E1 board_empty, .setIndex E1 0,
   .setPiece F1 board_white_rook, .copyIndex F1 H1,
   .setPiece H1 board_empty, .setIndex H1 0] ++
  (if od then [.push A1, .setPiece A1 board_white_rook] else [])

/-- castle.c castle_white_queen_side (lines 168-256): rook A1 to D1,
king E1 to C1, other rook H1. -/
def castle_white_queen_side (od : Bool) : List SqOp :=
  [.push A1, .push D1,
   .setPiece C1 board_white_king, .setIndex C1 0,
   .setPiece E1 board_empty, .setIndex E1 0,
   .setPiece D1 board_white_rook, .copyIndex D1 A1,
   .setPiece A1 board_empty, .setIndex A1 0] ++
  (if od then [.push H1, .setPiece H1 board_white_rook] else [])

/-- castle.c castle_black_king_side (lines 265-353), black mirror. -/
def castle_black_king_side (od : Bool) : List SqOp :=
  [.push H8, .push F8,
   .setPiece G8 board_black_king, .setIndex G8 0,
   .setPiece E8 board_empty, .setIndex E8 0,
   .setPiece F8 board_black_rook, .copyIndex F8 H8,
   .setPiece H8 board_empty, .setIndex H8 0] ++
  (if od then [.push A8, .setPiece A8 board_black_rook] else [])

/-- castle.c castle_black_queen_side (lines 362-450), black mirror. -/
def castle_black_queen_side (od : Bool) : List SqOp :=
  [.push A8, .push D8,
   .setPiece C8 board_black_king, .setIndex C8 0,
   .setPiece E8 board_empty, .setIndex E8 0,
   .setPiece D8 board_black_rook, .copyIndex D8 A8,
   .setPiece A8 board_empty, .setIndex A8 0] ++
  (if od then [.push H8, .setPiece H8 board_black_rook] else [])

/-! ### Capture makers (capture.c), squares/undo slice -/

/-- capture.c capture_with_king (lines 846-929): take the victim off
`to` first (its own undo records), then move as a generic piece move. -/
def capture_with_king (f t : ℕ) (tk : TakeFn) : List SqOp :=
  takeOps tk t ++ [.copy t f, .setIndex f 0, .setPiece f board_empty]

/-- capture.c capture_with_queen (lines 936-1012), same slice. -/
def capture_with_queen (f t : ℕ) (tk : TakeFn) : List SqOp :=
  takeOps tk t ++ [.copy t f, .setIndex f 0, .setPiece f board_empty]

/-- capture.c capture_with_rook (lines 1093-1170), same slice. -/
def capture_with_rook (f t : ℕ) (tk : TakeFn) : List SqOp :=
  takeOps tk t ++ [.copy t f, .setIndex f 0, .setPiece f board_empty]

/-- capture.c capture_with_bishop (lines 1176-1261), same slice. -/
def capture_with_bishop (f t : ℕ) (tk : TakeFn) : List SqOp :=
  takeOps tk t ++ [.copy t f, .setIndex f 0, .setPiece f board_empty]

/-- capture.c capture_with_knight (lines 1268-1345), same slice. -/
def capture_with_knight (f t : ℕ) (tk : TakeFn) : List SqOp :=
  takeOps tk t ++ [.copy t f, .setIndex f 0, .setPiece f board_empty]

/-- capture.c capture_with_white_king_castle (lines 754-793): rewrite
the king square in place (from == E1 by the source assert), demote any
tagged corner rooks (recording them), then capture as a king. -/
def capture_with_white_king_castle (f t : ℕ) (tk : TakeFn)
    (a1d h1d : Bool) : List SqOp :=
  [.setPiece f board_white_king] ++
  (if a1d then [.push A1, .setPiece A1 board_white_rook] else []) ++
  (if h1d then [.push H1, .setPiece H1 board_white_rook] else []) ++
  capture_with_king f t tk

/-- capture.c capture_with_black_king_castle (lines 800-839), mirror. -/
def capture_with_black_king_castle (f t : ℕ) (tk : TakeFn)
    (a8d h8d : Bool) : List SqOp :=
  [.setPiece f board_black_king] ++
  (if a8d then [.push A8, .setPiece A8 board_black_rook] else []) ++
  (if h8d then [.push H8, .setPiece H8 board_black_rook] else []) ++
  capture_with_king f t tk

/-- capture.c capture_with_white_rook_castle (lines 1019-1049): untag
the moving rook in place, demote the E1 king (recording it) when the
other corner is no longer tagged, then capture as a rook. -/
def capture_with_white_rook_castle (f t : ℕ) (tk : TakeFn)
    (e1d : Bool) : List SqOp :=
  [.setPiece f board_white_rook] ++
  (if e1d then [.push E1, .setPiece E1 board_white_king] else []) ++
  capture_with_rook f t tk

/-- capture.c capture_with_black_rook_castle (lines 1056-1086). -/
def capture_with_black_rook_castle (f t : ℕ) (tk : TakeFn)
    (e8d : Bool) : List SqOp :=
  [.setPiece f board_black_rook] ++
  (if e8d then [.push E8, .setPiece E8 board_black_king] else []) ++
  capture_with_rook f t tk

/-- capture.c capture_with_white_pawn (lines 1352-1433): take, then
place the pawn (tagged `rank7` on the seventh rank), then clear the
origin. -/
def capture_with_white_pawn (f t : ℕ) (tk : TakeFn) (r7 : Bool) :
    List SqOp :=
  takeOps tk t ++
  (if r7 then [.setPiece t board_white_pawn_rank7]
   else [.setPiece t board_white_pawn]) ++
  [.copyIndex t f, .setIndex f 0, .setPiece f board_empty]

/-- capture.c capture_with_black_pawn (lines 1440-1520), mirror. -/
def capture_with_black_pawn (f t : ℕ) (tk : TakeFn) (r2 : Bool) :
    List SqOp :=
  takeOps tk t ++
  (if r2 then [.setPiece t board_black_pawn_rank2]
   else [.setPiece t board_black_pawn]) ++
  [.copyIndex t f, .setIndex f 0, .setPiece f board_empty]

/-! ### En-passant makers (enpassant.c), squares/undo slice -/

/-- enpassant.c enpassant_with_white_pawn (lines 71-219): occupy the
to-square, splice the victim (`to + BOARD_VECTOR_SOUTH = to - 1`) out
of the black piece list (recording `other`), record and clear the
victim square, clear the from-square. -/
def enpassant_with_white_pawn (f t other : ℕ) : List SqOp :=
  [.copy t f,
   .push other, .copyIndex other (t - 1),
   .push (t - 1), .setPiece (t - 1) board_empty, .setIndex (t - 1) 0,
   .setPiece f board_empty, .setIndex f 0]

/-- enpassant.c enpassant_with_black_pawn (lines 228-375), mirror with
victim `to + BOARD_VECTOR_NORTH = to + 1`. -/
def enpassant_with_black_pawn (f t other : ℕ) : List SqOp :=
  [.copy t f,
   .push other, .copyIndex other (t + 1),
   .push (t + 1), .setPiece (t + 1) board_empty, .setIndex (t + 1) 0,
   .setPiece f board_empty, .setIndex f 0]

/-! ### Promotion makers (promote.c), squares/undo slice

Each promotion first recovers the real to-square (`to ^= XOR_PROM_XXX`)
and repairs the entry undo record that board_make_move filled with the
encoded square (promote.c:86-93), takes a captured piece when the move
changes file, writes the promoted piece onto `to`, and clears `from`.
The spare-slot write `undo[undo_len].piece.piece` (promote.c:221) is
past the log's end, leaves `undo_len` unchanged, and is invisible to
board_undo_move (its bound is claim C10). -/

/-- promote.c promote_white_queen (lines 72-226). -/
def promote_white_queen (f tEnc : ℕ) (cap : Option TakeFn) : List SqOp :=
  [.repairTo (tEnc ^^^ xorProm .queen)] ++
  (match cap with
   | some tk => takeOps tk (tEnc ^^^ xorProm .queen)
   | none => []) ++
  [.copyIndex (tEnc ^^^ xorProm .queen) f,
   .setPiece (tEnc ^^^ xorProm .queen) board_white_queen,
   .setPiece f board_empty, .setIndex f 0]

/-- promote.c promote_white_rook (lines 235-389). -/
def promote_white_rook (f tEnc : ℕ) (cap : Option TakeFn) : List SqOp :=
  [.repairTo (tEnc ^^^ xorProm .rook)] ++
  (match cap with
   | some tk => takeOps tk (tEnc ^^^ xorProm .rook)
   | none => []) ++
  [.copyIndex (tEnc ^^^ xorProm .rook) f,
   .setPiece (tEnc ^^^ xorProm .rook) board_white_rook,
   .setPiece f board_empty, .setIndex f 0]

/-- promote.c promote_white_bishop (lines 398-562); the bishop code
depends on the square color (`BOARD_SQUARE_IS_LIGHT(to)`). -/
def promote_white_bishop (f tEnc : ℕ) (cap : Option TakeFn)
    (light : Bool) : List SqOp :=
  [.repairTo (tEnc ^^^ xorProm .bishop)] ++
  (match cap with
   | some tk => takeOps tk (tEnc ^^^ xorProm .bishop)
   | none => []) ++
  [.copyIndex (tEnc ^^^ xorProm .bishop) f,
   .setPiece (tEnc ^^^ xorProm .bishop)
     (if light then board_white_bishop_light else board_white_bishop_dark),
   .setPiece f board_empty, .setIndex f 0]

/-- promote.c promote_white_knight (lines 571-748): after placing the
knight, a scan of the piece list may swap it with the first non-knight
at list position `kn < index`, standing on square `sq` (recording that
square before its index write). -/
def promote_white_knight (f tEnc : ℕ) (cap : Option TakeFn)
    (sw : Option (ℕ × ℕ)) (idx : ℕ) : List SqOp :=
  [.repairTo (tEnc ^^^ xorProm .knight)] ++
  ((match cap with
    | some tk => takeOps tk (tEnc ^^^ xorProm .knight)
    | none => []) ++
   ([.copyIndex (tEnc ^^^ xorProm .knight) f,
     .setPiece (tEnc ^^^ xorProm .knight) board_white_knight] ++
    ((match sw with
      | some (kn, sq) =>
         [.push sq, .setIndex (tEnc ^^^ xorProm .knight) kn,
          .setIndex sq idx]
      | none => []) ++
     [.setPiece f board_empty, .setIndex f 0])))

/-- promote.c promote_black_queen (lines 757-909), mirror. -/
def promote_black_queen (f tEnc : ℕ) (cap : Option TakeFn) : List SqOp :=
  [.repairTo (tEnc ^^^ xorProm .queen)] ++
  (match cap with
   | some tk => takeOps tk (tEnc ^^^ xorProm .queen)
   | none => []) ++
  [.copyIndex (tEnc ^^^ xorProm .queen) f,
   .setPiece (tEnc ^^^ xorProm .queen) board_black_queen,
   .setPiece f board_empty, .setIndex f 0]

/-- promote.c promote_black_rook (lines 920-1070), mirror. -/
def promote_black_rook (f tEnc : ℕ) (cap : Option TakeFn) : List SqOp :=
  [.repairTo (tEnc ^^^ xorProm .rook)] ++
  (match cap with
   | some tk => takeOps tk (tEnc ^^^ xorProm .rook)
   | none => []) ++
  [.copyIndex (tEnc ^^^ xorProm .rook) f,
   .setPiece (tEnc ^^^ xorProm .rook) board_black_rook,
   .setPiece f board_empty, .setIndex f 0]

/-- promote.c promote_black_bishop (lines 1079-1243), mirror. -/
def promote_black_bishop (f tEnc : ℕ) (cap : Option TakeFn)
    (light : Bool) : List SqOp :=
  [.repairTo (tEnc ^^^ xorProm .bishop)] ++
  (match cap with
   | some tk => takeOps tk (tEnc ^^^ xorProm .bishop)
   | none => []) ++
  [.copyIndex (tEnc ^^^ xorProm .bishop) f,
   .setPiece (tEnc ^^^ xorProm .bishop)
     (if light then board_black_bishop_light else board_black_bishop_dark),
   .setPiece f board_empty, .setIndex f 0]

/-- promote.c promote_black_knight (lines 1252-1430), mirror. -/
def promote_black_knight (f tEnc : ℕ) (cap : Option TakeFn)
    (sw : Option (ℕ × ℕ)) (idx : ℕ) : List SqOp :=
  [.repairTo (tEnc ^^^ xorProm .knight)] ++
  ((match cap with
    | some tk => takeOps tk (tEnc ^^^ xorProm .knight)
    | none => []) ++
   ([.copyIndex (tEnc ^^^ xorProm .knight) f,
     .setPiece (tEnc ^^^ xorProm .knight) board_black_knight] ++
    ((match sw with
      | some (kn, sq) =>
         [.push sq, .setIndex (tEnc ^^^ xorProm .knight) kn,
          .setIndex sq idx]
      | none => []) ++
     [.setPiece f board_empty, .setIndex f 0])))

end Rookie
